import Mathlib

/-!
Shallow embedding of the mac-resource-mcp-server core
(`MacResourceManager` in src/resource-manager.ts and `SessionManager` in
src/session-manager.ts).

Conventions of the embedding:
* TypeScript `number` ports are modelled as `Int` (the range check
  `Number.isInteger(port) && 1 <= port && port <= 65535` becomes a check on
  an integer; non-integral floats are outside the model's domain and are
  covered by the integer range check).
* Timestamps (`Date.now()`) are `Int` milliseconds, threaded explicitly.
* Each `execAsync` call site is modelled by a field of an `OsEnv` record:
  a function from the port to `Except String α` where `.error msg` models
  the promise rejecting with an `Error` whose `.message` is `msg`, and
  `.ok v` models a successful exec whose stdout parses to `v`.  An empty
  stdout corresponds to `.ok []`.
* Operations return their structured outcome together with a trace of
  observable OS effects (`Ev.query p` for an `lsof` invocation on port `p`,
  `Ev.signal pid sig` for a `kill` signal attempt), so that "no OS query
  happened" / "no termination signal was sent" are statements about the
  trace.
-/

/-- A discovered process, as produced by `parseProcessInfo`. -/
structure ProcessHandle where
  pid : Nat
  processName : String
  command : String
  deriving DecidableEq, Repr

/-- JavaScript `s.toLowerCase()` (ASCII-relevant part): lowercase every
character.  Defined directly on the character list so that it evaluates by
kernel reduction. -/
def strToLower (s : String) : String :=
  ⟨s.data.map Char.toLower⟩

/-- `pat` is a prefix of `l` (executable). -/
def isPrefixOfCL : List Char → List Char → Bool
  | [], _ => true
  | _ :: _, [] => false
  | a :: as, b :: bs => a = b && isPrefixOfCL as bs

/-- `pat` occurs as a contiguous sublist of the second argument
(executable). -/
def containsSubCL (pat : List Char) : List Char → Bool
  | [] => pat.isEmpty
  | c :: rest => isPrefixOfCL pat (c :: rest) || containsSubCL pat rest

/-- JavaScript `hay.includes(pat)`: substring containment. -/
def strContains (hay pat : String) : Bool :=
  containsSubCL pat.toList hay.toList

/-- The built-in protected port table `PROTECTED_PORTS` (its key set). -/
def PROTECTED_PORT_KEYS : List Int :=
  [3306, 5432, 6379, 27017, 2375, 2376, 2377, 22, 80, 443, 25, 53,
   1433, 5984, 9200, 8086, 5672, 9092]

/-- `PROTECTED_PROCESS_PATTERNS` from the source. -/
def PROTECTED_PROCESS_PATTERNS : List String :=
  ["docker", "dockerd", "mysql", "mysqld", "postgres", "redis-server",
   "mongod", "elasticsearch", "rabbitmq", "kafka"]

/-- `COMMON_DEV_PORTS` from the source. -/
def COMMON_DEV_PORTS : List Int :=
  [3000, 3001, 4321, 5173, 8000, 8080, 8100, 9000]

/-- `validatePort`: `Number.isInteger(port) && port >= 1 && port <= 65535`
(as a Bool; the TS function throws when false, callers catch). -/
def validPortB (port : Int) : Bool :=
  1 ≤ port && port ≤ 65535

/-- `isProtectedPort`: built-in table membership or custom protected list
membership (`custom` is `sessionManager.getProtectedPorts()`). -/
def isProtectedPort (custom : List Int) (port : Int) : Bool :=
  PROTECTED_PORT_KEYS.contains port || custom.contains port

/-- Result record of `checkForCriticalProcesses`. -/
structure CritCheck where
  hasCritical : Bool
  services : List String
  deriving DecidableEq, Repr

/-- The inner pattern loop of `checkForCriticalProcesses` for one process:
some built-in pattern occurs in the lowercased name or lowercased command
(the `break` after the first hit makes the loop exactly an existence test). -/
def procMatches (info : ProcessHandle) : Bool :=
  PROTECTED_PROCESS_PATTERNS.any fun pat =>
    strContains (strToLower info.processName) pat ||
    strContains (strToLower info.command) pat

/-- The outer loop of `checkForCriticalProcesses`: push the original-case
`processName` of every matching process, in order. -/
def collectCritical : List ProcessHandle → List String
  | [] => []
  | info :: rest =>
    if procMatches info then info.processName :: collectCritical rest
    else collectCritical rest

/-- Worker for `dedupFirst`: drop elements already seen. -/
def dedupFirstAux (seen : List String) : List String → List String
  | [] => []
  | x :: xs =>
    if seen.contains x then dedupFirstAux seen xs
    else x :: dedupFirstAux (x :: seen) xs

/-- `[...new Set(xs)]`: deduplication keeping the first occurrence of each
element, preserving order. -/
def dedupFirst (l : List String) : List String :=
  dedupFirstAux [] l

/-- The pure tail of `checkForCriticalProcesses` once the process list is in
hand: `hasCritical` iff any name was collected, `services` deduplicated. -/
def classifyProcs (procs : List ProcessHandle) : CritCheck :=
  let cs := collectCritical procs
  { hasCritical := cs.length > 0, services := dedupFirst cs }

/-- `checkForCriticalProcesses(port)`: runs `lsof -i :port -P -n` (the query
function `q`); any exec failure is caught and reported as
`{hasCritical: false, services: []}`. -/
def checkForCriticalProcesses (q : Int → Except String (List ProcessHandle))
    (port : Int) : CritCheck :=
  match q port with
  | .error _ => { hasCritical := false, services := [] }
  | .ok procs => classifyProcs procs

/-! ### SessionManager (src/session-manager.ts), functional model

The in-memory `sessionData` is a `SessionData` value; each mutating method
maps the old value (plus the current time `now`, for `Date.now()`) to the
new value.  `saveSession` sets `lastActivity := now` and writes the file
(file IO is outside the model; write failure never changes the in-memory
value).  The JS object `customProtectedServices` is an association list
with unique keys; `obj[port] = service` is `setEntry`, `delete obj[port]`
is `delEntry`. -/

/-- `ProjectInfo` from src/session-manager.ts. -/
structure ProjectInfo where
  name : String
  directory : String
  ports : List Int
  framework : String
  lastActive : Int
  deriving DecidableEq, Repr

/-- `SessionData` from src/session-manager.ts. -/
structure SessionData where
  activeProjects : List ProjectInfo
  protectedPorts : List Int
  lastActivity : Int
  customProtectedServices : List (Int × String)
  deriving DecidableEq, Repr

/-- JS `obj[k] = v` on an association list: overwrite the entry if the key
is present, append otherwise. -/
def setEntry (m : List (Int × String)) (k : Int) (v : String) :
    List (Int × String) :=
  if m.any (fun e => e.1 = k) then
    m.map (fun e => if e.1 = k then (k, v) else e)
  else m ++ [(k, v)]

/-- JS `delete obj[k]`. -/
def delEntry (m : List (Int × String)) (k : Int) : List (Int × String) :=
  m.filter (fun e => e.1 ≠ k)

/-- JS `obj[k]` lookup. -/
def getEntry (m : List (Int × String)) (k : Int) : Option String :=
  (m.find? (fun e => e.1 = k)).map (fun e => e.2)

namespace SessionManager

/-- The constructor's fresh `sessionData`. -/
def initial (now : Int) : SessionData :=
  { activeProjects := [], protectedPorts := [], lastActivity := now,
    customProtectedServices := [] }

/-- `loadSession`: `readResult` is `some d` when the file was read and
parsed to `d`, `none` when reading/parsing threw. On success, projects with
`lastActive <= now - 24h` are filtered out; on failure `saveSession` runs
on the untouched in-memory data `cur` (stamping `lastActivity`). -/
def loadSession (cur : SessionData) (readResult : Option SessionData)
    (now : Int) : SessionData :=
  match readResult with
  | some d =>
    let kept := d.activeProjects.filter
      (fun p => now - 24 * 60 * 60 * 1000 < p.lastActive)
    { d with activeProjects := kept }
  | none => { cur with lastActivity := now }

/-- `findIndex`-then-assign: replace the first project with the given
directory. -/
def replaceFirstProject (l : List ProjectInfo) (dir : String)
    (pi : ProjectInfo) : List ProjectInfo :=
  match l with
  | [] => []
  | p :: ps =>
    if p.directory = dir then pi :: ps
    else p :: replaceFirstProject ps dir pi

/-- `addProject`: upsert keyed by `directory`; `lastActive := now`; then
`saveSession` (`lastActivity := now`). -/
def addProject (s : SessionData) (now : Int) (name directory : String)
    (ports : List Int) (framework : String) : SessionData :=
  let pi : ProjectInfo :=
    { name := name, directory := directory, ports := ports,
      framework := framework, lastActive := now }
  let projs :=
    if s.activeProjects.any (fun p => p.directory = directory) then
      replaceFirstProject s.activeProjects directory pi
    else s.activeProjects ++ [pi]
  { s with activeProjects := projs, lastActivity := now }

/-- `removeProject`: filter by directory; then `saveSession`. -/
def removeProject (s : SessionData) (now : Int) (directory : String) :
    SessionData :=
  { s with
      activeProjects :=
        s.activeProjects.filter (fun p => p.directory ≠ directory),
      lastActivity := now }

/-- `addProtectedPort`: push the port if absent, set the label mapping;
then `saveSession`. -/
def addProtectedPort (s : SessionData) (now : Int) (port : Int)
    (service : String) : SessionData :=
  let pp :=
    if s.protectedPorts.contains port then s.protectedPorts
    else s.protectedPorts ++ [port]
  { s with
      protectedPorts := pp,
      customProtectedServices :=
        setEntry s.customProtectedServices port service,
      lastActivity := now }

/-- `removeProtectedPort`: filter the port out of both structures; then
`saveSession`. -/
def removeProtectedPort (s : SessionData) (now : Int) (port : Int) :
    SessionData :=
  { s with
      protectedPorts := s.protectedPorts.filter (fun p => p ≠ port),
      customProtectedServices := delEntry s.customProtectedServices port,
      lastActivity := now }

/-- `touchProject`: update `lastActive` on the first project with the given
directory (via the mutable `find` result); saves only when found. -/
def touchFirstProject (l : List ProjectInfo) (dir : String) (now : Int) :
    List ProjectInfo :=
  match l with
  | [] => []
  | p :: ps =>
    if p.directory = dir then { p with lastActive := now } :: ps
    else p :: touchFirstProject ps dir now

/-- `touchProject` on the session value. -/
def touchProject (s : SessionData) (now : Int) (dir : String) :
    SessionData :=
  if s.activeProjects.any (fun p => p.directory = dir) then
    { s with
        activeProjects := touchFirstProject s.activeProjects dir now,
        lastActivity := now }
  else s

/-- `getActiveProjects` as a value accessor (aliasing is modelled
separately, see the heap model below). -/
def getActiveProjects (s : SessionData) : List ProjectInfo :=
  s.activeProjects

/-- `getProtectedPorts` as a value accessor. -/
def getProtectedPorts (s : SessionData) : List Int :=
  s.protectedPorts

end SessionManager

/-! ### MacResourceManager (src/resource-manager.ts) -/

/-- Signal severity: `kill -TERM` / `kill -KILL`. -/
inductive Sig
  | term
  | kill
  deriving DecidableEq, Repr

/-- Observable OS effects: an `lsof` query on a port, or a kill-signal
attempt on a pid. -/
inductive Ev
  | query (port : Int)
  | signal (pid : Nat) (s : Sig)
  deriving DecidableEq, Repr

/-- The OS responses at each distinct exec call site.  Distinct fields let
successive invocations of the same shell command behave differently where
the source issues them at different points. -/
structure OsEnv where
  /-- `lsof -i :port -P -n` at top level (checkPort, listDevPorts,
  killDevServersSelective outer probe), parsed by `parseProcessInfo`. -/
  lsofFull : Int → Except String (List ProcessHandle)
  /-- `lsof -i :port -P -n` issued inside `checkForCriticalProcesses`. -/
  lsofCrit : Int → Except String (List ProcessHandle)
  /-- `lsof -ti :port` (pid list). -/
  lsofPids : Int → Except String (List Nat)
  /-- `lsof -ti :port` re-issued after the grace period in `killPort`. -/
  lsofPidsAfter : Int → Except String (List Nat)
  /-- success of a single `kill -SIG pid` exec. -/
  killOk : Nat → Bool
  /-- success of a batched `kill -TERM pid1 pid2 ...` exec. -/
  batchKillOk : List Nat → Bool

/-- Outcome of `checkPort`.  `invalidPort` and `queryError` carry
`isError: true` in the source; `available`/`inUse` are normal reports. -/
inductive CheckPortResult
  | invalidPort
  | available
  | inUse (procs : List ProcessHandle)
  | queryError (msg : String)
  deriving DecidableEq, Repr

/-- `checkPort(port)`: validate, query; empty stdout means available; a
rejected exec whose message contains the text "No such process" is also
reported available; any other rejection (including none here, since
validation is checked first) is an error report. -/
def checkPort (env : OsEnv) (port : Int) : CheckPortResult × List Ev :=
  if !validPortB port then (.invalidPort, [])
  else
    match env.lsofFull port with
    | .error msg =>
      if strContains msg "No such process" then (.available, [.query port])
      else (.queryError msg, [.query port])
    | .ok procs =>
      if procs.isEmpty then (.available, [.query port])
      else (.inUse procs, [.query port])

/-- Outcome of `killPort`. -/
inductive KillPortResult
  | invalidPort
  | protectedPort
  | queryError (msg : String)
  | noProcesses
  | criticalService (services : List String)
  | killed (perPid : List (Nat × Bool)) (stillInUse : Bool)
  deriving DecidableEq, Repr

/-- `killPort(port, force)`: validate; refuse on `isProtectedPort`; list
pids (`lsof -ti`, a rejection here falls to the outer catch); refuse when
`checkForCriticalProcesses` reports critical; otherwise signal every pid
(TERM, or KILL when `force`), wait, and re-query to report whether the
port still resolves. -/
def killPort (env : OsEnv) (custom : List Int) (port : Int) (force : Bool) :
    KillPortResult × List Ev :=
  if !validPortB port then (.invalidPort, [])
  else if isProtectedPort custom port then (.protectedPort, [])
  else
    match env.lsofPids port with
    | .error msg => (.queryError msg, [.query port])
    | .ok pids =>
      if pids.isEmpty then (.noProcesses, [.query port])
      else
        let check := checkForCriticalProcesses env.lsofCrit port
        if check.hasCritical then
          (.criticalService check.services, [.query port, .query port])
        else
          let sig := if force then Sig.kill else Sig.term
          let perPid := pids.map (fun pid => (pid, env.killOk pid))
          let still :=
            match env.lsofPidsAfter port with
            | .ok _ => true
            | .error _ => false
          (.killed perPid still,
            [.query port, .query port]
              ++ pids.map (fun pid => Ev.signal pid sig)
              ++ [.query port])

/-- One port's line in `listDevPorts`: a failed or empty query reports
available; otherwise the first parsed process is shown. -/
inductive DevPortStatus
  | available
  | inUse (pid : Nat) (processName : String)
  deriving DecidableEq, Repr

/-- The per-port probe inside `listDevPorts`'s loop. -/
def devPortProbe (env : OsEnv) (port : Int) : DevPortStatus :=
  match env.lsofFull port with
  | .error _ => .available
  | .ok [] => .available
  | .ok (h :: _) => .inUse h.pid h.processName

/-- `listDevPorts()`: probe every common dev port. -/
def listDevPorts (env : OsEnv) : List (Int × DevPortStatus) × List Ev :=
  (COMMON_DEV_PORTS.map (fun p => (p, devPortProbe env p)),
   COMMON_DEV_PORTS.map (fun p => Ev.query p))

/-- The status string rendered by one `monitorPort` poll: a failed or
empty query renders the available line; otherwise the first process's pid
and name are interpolated. -/
def renderStatus (r : Except String (List ProcessHandle)) : String :=
  match r with
  | .error _ => "🟢 Available"
  | .ok [] => "🟢 Available"
  | .ok (h :: _) =>
    "🔴 In-use (PID: " ++ toString h.pid ++ ", Process: " ++
      h.processName ++ ")"

/-- The `monitorPort` polling loop: emit a line only when the rendered
status differs from the last rendered status. -/
def monitorLoop (polls : List (Except String (List ProcessHandle)))
    (lastStatus : String) : List String :=
  match polls with
  | [] => []
  | r :: rs =>
    let cur := renderStatus r
    if cur = lastStatus then monitorLoop rs lastStatus
    else cur :: monitorLoop rs cur

/-- Outcome of `monitorPort`. -/
inductive MonitorResult
  | invalidPort
  | finished (emitted : List String)
  deriving DecidableEq, Repr

/-- `monitorPort(port, duration)`: validate, then run the polling loop with
`lastStatus` starting as the empty string.  The poll results stand for the
successive `lsof -i :port -P -n` outcomes over the duration; the timing of
the fixed 5s interval is abstracted into the length of `polls`. -/
def monitorPort (port : Int)
    (polls : List (Except String (List ProcessHandle))) :
    MonitorResult × List Ev :=
  if !validPortB port then (.invalidPort, [])
  else (.finished (monitorLoop polls ""), polls.map (fun _ => Ev.query port))

/-- Per-port outcome inside `killProjectPorts`. -/
inductive ProjectPortOutcome
  | skippedProtected
  | skippedCritical (services : List String)
  | killed
  | alreadyAvailable
  | couldNotKill
  deriving DecidableEq, Repr

/-- The loop body of `killProjectPorts` for one registered port: skip when
port-protected; skip when `checkForCriticalProcesses` reports critical;
otherwise list pids and batch-signal TERM (a rejection of either exec is
caught as "could not kill"). -/
def killProjectPort (env : OsEnv) (custom : List Int) (port : Int) :
    ProjectPortOutcome × List Ev :=
  if isProtectedPort custom port then (.skippedProtected, [])
  else
    let check := checkForCriticalProcesses env.lsofCrit port
    if check.hasCritical then (.skippedCritical check.services, [.query port])
    else
      match env.lsofPids port with
      | .error _ => (.couldNotKill, [.query port, .query port])
      | .ok pids =>
        if pids.isEmpty then (.alreadyAvailable, [.query port, .query port])
        else
          ((if env.batchKillOk pids then .killed else .couldNotKill),
           [.query port, .query port]
             ++ pids.map (fun i => Ev.signal i .term))

/-- Outcome of `killProjectPorts`. -/
inductive KillProjectResult
  | notFound
  | done (outcomes : List (Int × ProjectPortOutcome))
  deriving DecidableEq, Repr

/-- `killProjectPorts(projectName)`: case-insensitive first-match lookup by
name over `getActiveProjects()`, then the per-port loop over the project's
registered ports. -/
def killProjectPorts (env : OsEnv) (custom : List Int)
    (projects : List ProjectInfo) (projectName : String) :
    KillProjectResult × List Ev :=
  match projects.find?
      (fun p => strToLower p.name = strToLower projectName) with
  | none => (.notFound, [])
  | some proj =>
    let steps := proj.ports.map
      (fun p => (p, killProjectPort env custom p))
    (.done (steps.map (fun x => (x.1, x.2.1))),
     (steps.map (fun x => x.2.2)).flatten)

/-- Per-port outcome inside `killDevServersSelective`. -/
inductive SelOutcome
  | notInUse
  | cleaned
  | couldNotClean
  | noPids
  | skippedProtected (services : List String)
  deriving DecidableEq, Repr

/-- The loop body of `killDevServersSelective` for one common dev port:
ports whose probe fails or is empty are passed over; in-use ports are
cleaned (batch TERM) unless critical or port-protected. -/
def selectivePort (env : OsEnv) (custom : List Int) (port : Int) :
    SelOutcome × List Ev :=
  match env.lsofFull port with
  | .error _ => (.notInUse, [.query port])
  | .ok [] => (.notInUse, [.query port])
  | .ok (_ :: _) =>
    let check := checkForCriticalProcesses env.lsofCrit port
    if !check.hasCritical && !isProtectedPort custom port then
      match env.lsofPids port with
      | .error _ => (.couldNotClean, [.query port, .query port, .query port])
      | .ok pids =>
        if pids.isEmpty then
          (.noPids, [.query port, .query port, .query port])
        else
          ((if env.batchKillOk pids then .cleaned else .couldNotClean),
           [.query port, .query port, .query port]
             ++ pids.map (fun i => Ev.signal i .term))
    else (.skippedProtected check.services, [.query port, .query port])

/-- `killDevServersSelective()`: the per-port loop over all common dev
ports. -/
def killDevServersSelective (env : OsEnv) (custom : List Int) :
    List (Int × SelOutcome) × List Ev :=
  let steps := COMMON_DEV_PORTS.map
    (fun p => (p, selectivePort env custom p))
  (steps.map (fun x => (x.1, x.2.1)),
   (steps.map (fun x => x.2.2)).flatten)

/-- Result of the two state-mutating manager operations. -/
inductive SimpleResult
  | ok
  | invalidPort
  deriving DecidableEq, Repr

/-- `addCustomProtectedPort(port, service)`: validate, then delegate to
`SessionManager.addProtectedPort`.  Validation failure leaves the session
state untouched. -/
def addCustomProtectedPort (s : SessionData) (now : Int) (port : Int)
    (service : String) : SimpleResult × SessionData :=
  if !validPortB port then (.invalidPort, s)
  else (.ok, SessionManager.addProtectedPort s now port service)

/-- `MacResourceManager.addProject`: delegates directly to
`SessionManager.addProject`; the source performs no port validation on
this path. -/
def mrAddProject (s : SessionData) (now : Int) (name directory : String)
    (ports : List Int) (framework : String) : SimpleResult × SessionData :=
  (.ok, SessionManager.addProject s now name directory ports framework)

/-! ### Reference-level model of the SessionManager accessors

`getActiveProjects` returns `this.sessionData.activeProjects` itself, while
`getProtectedPorts` returns `[...this.sessionData.protectedPorts]` (a spread
copy).  To express what happens when a caller mutates the returned array, JS
array references are modelled by indices into explicit heaps of array
cells. -/

/-- Heap cells for the two array types involved. -/
structure MgrHeap where
  projArrays : List (List ProjectInfo)
  intArrays : List (List Int)
  deriving DecidableEq, Repr

/-- A session-manager instance: its heap and the references its
`sessionData` holds to the `activeProjects` and `protectedPorts` arrays. -/
structure MgrState where
  heap : MgrHeap
  projectsRef : Nat
  protectedRef : Nat
  deriving DecidableEq, Repr

/-- Dereference a `ProjectInfo[]` cell. -/
def readProjArray (h : MgrHeap) (r : Nat) : List ProjectInfo :=
  h.projArrays.getD r []

/-- Dereference a `number[]` cell. -/
def readIntArray (h : MgrHeap) (r : Nat) : List Int :=
  h.intArrays.getD r []

/-- In-place mutation of a `ProjectInfo[]` cell (e.g. `arr.length = 0`,
`arr.push(...)` on the caller's side). -/
def writeProjArray (h : MgrHeap) (r : Nat) (v : List ProjectInfo) : MgrHeap :=
  { h with projArrays := h.projArrays.set r v }

/-- In-place mutation of a `number[]` cell. -/
def writeIntArray (h : MgrHeap) (r : Nat) (v : List Int) : MgrHeap :=
  { h with intArrays := h.intArrays.set r v }

/-- Allocate a fresh `number[]` cell (the `[...]` spread). -/
def allocIntArray (h : MgrHeap) (v : List Int) : MgrHeap × Nat :=
  ({ h with intArrays := h.intArrays ++ [v] }, h.intArrays.length)

/-- `getActiveProjects()`: `return this.sessionData.activeProjects` — the
internal reference itself is handed out. -/
def hGetActiveProjects (st : MgrState) : MgrState × Nat :=
  (st, st.projectsRef)

/-- `getProtectedPorts()`: `return [...this.sessionData.protectedPorts]` —
a fresh cell holding a copy of the current contents. -/
def hGetProtectedPorts (st : MgrState) : MgrState × Nat :=
  let res := allocIntArray st.heap (readIntArray st.heap st.protectedRef)
  ({ st with heap := res.1 }, res.2)

/-! ### Helper lemmas -/

/-- Spec-side reading of "the process matches a protected pattern": some
built-in pattern is a substring of the lowercased name or lowercased
command. -/
def MatchesSpec (info : ProcessHandle) : Prop :=
  ∃ pat ∈ PROTECTED_PROCESS_PATTERNS,
    (pat.toList <:+: (strToLower info.processName).toList ∨
     pat.toList <:+: (strToLower info.command).toList)

theorem isPrefixOfCL_iff (pat l : List Char) :
    isPrefixOfCL pat l = true ↔ pat <+: l := by
  induction pat generalizing l with
  | nil => simp [isPrefixOfCL]
  | cons a as ih =>
    cases l with
    | nil => simp [isPrefixOfCL]
    | cons b bs => simp [isPrefixOfCL, ih, List.cons_prefix_cons]

theorem containsSubCL_iff (pat hay : List Char) :
    containsSubCL pat hay = true ↔ pat <:+: hay := by
  induction hay with
  | nil => simp [containsSubCL, List.isEmpty_iff, List.infix_nil]
  | cons c rest ih =>
    simp [containsSubCL, isPrefixOfCL_iff, ih, List.infix_cons_iff]

theorem procMatches_iff (info : ProcessHandle) :
    procMatches info = true ↔ MatchesSpec info := by
  simp [procMatches, MatchesSpec, strContains, containsSubCL_iff,
    List.any_eq_true]

theorem collectCritical_eq (procs : List ProcessHandle) :
    collectCritical procs =
      (procs.filter procMatches).map (fun i => i.processName) := by
  induction procs with
  | nil => rfl
  | cons h t ih =>
    cases hm : procMatches h with
    | true => simp [collectCritical, hm, List.filter_cons, ih]
    | false => simp [collectCritical, hm, List.filter_cons, ih]

theorem mem_dedupFirstAux {x : String} (l seen : List String) :
    x ∈ dedupFirstAux seen l ↔ x ∈ l ∧ x ∉ seen := by
  induction l generalizing seen with
  | nil => simp [dedupFirstAux]
  | cons y ys ih =>
    by_cases hy : seen.contains y
    · rw [dedupFirstAux, if_pos hy]
      replace hy : y ∈ seen := by simpa using hy
      simp only [ih, List.mem_cons]
      constructor
      · rintro ⟨hx, hs⟩
        exact ⟨Or.inr hx, hs⟩
      · rintro ⟨rfl | hx, hs⟩
        · exact absurd hy hs
        · exact ⟨hx, hs⟩
    · rw [dedupFirstAux, if_neg hy]
      replace hy : y ∉ seen := by simpa using hy
      simp only [List.mem_cons, ih]
      constructor
      · rintro (rfl | ⟨hx, hs⟩)
        · exact ⟨Or.inl rfl, hy⟩
        · exact ⟨Or.inr hx, fun h => hs (Or.inr h)⟩
      · rintro ⟨rfl | hx, hs⟩
        · exact Or.inl rfl
        · by_cases hxy : x = y
          · exact Or.inl hxy
          · exact Or.inr ⟨hx, by simp [hxy, hs]⟩

theorem mem_dedupFirst {x : String} (l : List String) :
    x ∈ dedupFirst l ↔ x ∈ l := by
  simp [dedupFirst, mem_dedupFirstAux]

theorem nodup_dedupFirstAux (l seen : List String) :
    (dedupFirstAux seen l).Nodup := by
  induction l generalizing seen with
  | nil => simp [dedupFirstAux]
  | cons y ys ih =>
    by_cases hy : seen.contains y
    · rw [dedupFirstAux, if_pos hy]
      exact ih seen
    · rw [dedupFirstAux, if_neg hy]
      refine List.nodup_cons.mpr ⟨?_, ih (y :: seen)⟩
      intro hmem
      exact ((mem_dedupFirstAux _ _).mp hmem).2 (List.mem_cons_self _ _)

theorem nodup_dedupFirst (l : List String) : (dedupFirst l).Nodup :=
  nodup_dedupFirstAux l []

/-- C3: for every sequence of discovered processes, the classification
reports `hasCritical = true` iff some process's lowercased name or
lowercased command contains a built-in protected pattern as a substring,
and `services` consists exactly of the original-case names of the matching
processes, deduplicated (and when the query succeeds,
`checkForCriticalProcesses` is exactly this classification of the
discovered processes). -/
theorem claim_C3_classifyProcesses (procs : List ProcessHandle) :
    (∀ q : Int → Except String (List ProcessHandle), ∀ p : Int,
        q p = .ok procs → checkForCriticalProcesses q p = classifyProcs procs)
    ∧ ((classifyProcs procs).hasCritical = true ↔
        ∃ info ∈ procs, MatchesSpec info)
    ∧ (∀ s, s ∈ (classifyProcs procs).services ↔
        ∃ info ∈ procs, MatchesSpec info ∧ s = info.processName)
    ∧ (classifyProcs procs).services.Nodup := by
  refine ⟨fun q p hq => ?_, ?_, fun s => ?_, ?_⟩
  · simp [checkForCriticalProcesses, hq]
  · simp only [classifyProcs, gt_iff_lt, decide_eq_true_eq,
      List.length_pos_iff_exists_mem, collectCritical_eq]
    simp only [List.mem_map, List.mem_filter, procMatches_iff]
    constructor
    · rintro ⟨a, info, ⟨hmem, hm⟩, rfl⟩
      exact ⟨info, hmem, hm⟩
    · rintro ⟨info, hmem, hm⟩
      exact ⟨info.processName, info, ⟨hmem, hm⟩, rfl⟩
  · simp only [classifyProcs]
    rw [mem_dedupFirst, collectCritical_eq]
    simp only [List.mem_map, List.mem_filter, procMatches_iff]
    constructor
    · rintro ⟨info, ⟨hmem, hm⟩, rfl⟩
      exact ⟨info, hmem, hm, rfl⟩
    · rintro ⟨info, hmem, hm, rfl⟩
      exact ⟨info, ⟨hmem, hm⟩, rfl⟩
  · exact nodup_dedupFirst _

/-- Witness for `claim_C3_classifyProcesses`: a mysqld process bound to a
port is classified critical with its original-case name reported. -/
theorem claim_C3_classifyProcesses_witness :
    checkForCriticalProcesses
        (fun _ => .ok [⟨42, "MySQLd", "/usr/sbin/mysqld --port=3307"⟩]) 3307
      = classifyProcs [⟨42, "MySQLd", "/usr/sbin/mysqld --port=3307"⟩]
    ∧ (classifyProcs [⟨42, "MySQLd", "/usr/sbin/mysqld --port=3307"⟩]).hasCritical
        = true
    ∧ "MySQLd" ∈
        (classifyProcs [⟨42, "MySQLd", "/usr/sbin/mysqld --port=3307"⟩]).services := by
  refine ⟨(claim_C3_classifyProcesses _).1 _ 3307 rfl, ?_, ?_⟩
  · exact ((claim_C3_classifyProcesses _).2.1).mpr
      ⟨⟨42, "MySQLd", "/usr/sbin/mysqld --port=3307"⟩, by simp,
        (procMatches_iff _).mp (by decide)⟩
  · exact ((claim_C3_classifyProcesses _).2.2.1 _).mpr
      ⟨⟨42, "MySQLd", "/usr/sbin/mysqld --port=3307"⟩, by simp,
        (procMatches_iff _).mp (by decide), rfl⟩

/-- C1: `killPort(p, force)` refuses without sending any termination signal
whenever `p` is protected (built-in table or custom set), regardless of
what is bound to `p`; and when `p` is not protected but some bound process
matches a protected pattern, it refuses citing the matched service names
(original-case, deduplicated) and sends no termination signal. -/
theorem claim_C1_killPort_protection (env : OsEnv) (custom : List Int)
    (port : Int) (force : Bool) :
    (isProtectedPort custom port = true →
       (killPort env custom port force).2 = [] ∧
       (validPortB port = true →
         killPort env custom port force = (.protectedPort, [])))
    ∧ (∀ pids procs,
        validPortB port = true →
        isProtectedPort custom port = false →
        env.lsofPids port = .ok pids → pids ≠ [] →
        env.lsofCrit port = .ok procs →
        (∃ info ∈ procs, MatchesSpec info) →
        killPort env custom port force =
          (.criticalService
             (dedupFirst ((procs.filter procMatches).map
               (fun i => i.processName))),
           [.query port, .query port])) := by
  constructor
  · intro hprot
    constructor
    · by_cases hv : validPortB port
      · simp [killPort, hv, hprot]
      · simp [killPort, hv]
    · intro hv
      simp [killPort, hv, hprot]
  · intro pids procs hv hprot hpids hne hcrit hmatch
    have hcheck : checkForCriticalProcesses env.lsofCrit port =
        classifyProcs procs := by
      simp [checkForCriticalProcesses, hcrit]
    have hhas : (classifyProcs procs).hasCritical = true := by
      obtain ⟨info, hmem, hm⟩ := hmatch
      simp only [classifyProcs, gt_iff_lt, decide_eq_true_eq,
        List.length_pos_iff_exists_mem, collectCritical_eq]
      exact ⟨info.processName, List.mem_map.mpr
        ⟨info, List.mem_filter.mpr ⟨hmem, (procMatches_iff _).mpr hm⟩, rfl⟩⟩
    have hserv : (classifyProcs procs).services =
        dedupFirst ((procs.filter procMatches).map (fun i => i.processName)) := by
      simp [classifyProcs, collectCritical_eq]
    simp [killPort, hv, hprot, hpids, List.isEmpty_iff, hne, hcheck, hhas,
      hserv]

/-- Witness for `claim_C1_killPort_protection`: built-in protected port
3306 is refused with no OS effect at all; unprotected port 3000 bound to a
mysqld process is refused citing mysqld, with no signal in the trace. -/
theorem claim_C1_killPort_protection_witness :
    isProtectedPort [] 3306 = true
    ∧ killPort
        { lsofFull := fun _ => .ok [],
          lsofCrit := fun _ => .ok [⟨42, "mysqld", "mysqld --port=3306"⟩],
          lsofPids := fun _ => .ok [42],
          lsofPidsAfter := fun _ => .error "none",
          killOk := fun _ => true, batchKillOk := fun _ => true }
        [] 3306 false = (.protectedPort, [])
    ∧ killPort
        { lsofFull := fun _ => .ok [],
          lsofCrit := fun _ => .ok [⟨42, "mysqld", "mysqld --port=3000"⟩],
          lsofPids := fun _ => .ok [42],
          lsofPidsAfter := fun _ => .error "none",
          killOk := fun _ => true, batchKillOk := fun _ => true }
        [] 3000 false =
        (.criticalService ["mysqld"], [.query 3000, .query 3000]) := by
  refine ⟨by decide, ?_, ?_⟩
  · exact ((claim_C1_killPort_protection _ [] 3306 false).1 (by decide)).2
      (by decide)
  · have h := (claim_C1_killPort_protection
      { lsofFull := fun _ => .ok [],
        lsofCrit := fun _ => .ok [⟨42, "mysqld", "mysqld --port=3000"⟩],
        lsofPids := fun _ => .ok [42],
        lsofPidsAfter := fun _ => .error "none",
        killOk := fun _ => true, batchKillOk := fun _ => true }
      [] 3000 false).2 [42] [⟨42, "mysqld", "mysqld --port=3000"⟩]
      (by decide) (by decide) rfl (by decide) rfl
      ⟨⟨42, "mysqld", "mysqld --port=3000"⟩, by simp,
        (procMatches_iff _).mp (by decide)⟩
    exact h.trans (by decide)

/-- C2 fails on `addProject`: the source's `MacResourceManager.addProject`
performs no port validation, so registering a project whose port list
contains 70000 (outside [1, 65535]) succeeds and mutates the persisted
session state instead of failing with an InvalidPort error. -/
theorem claim_C2_counterexample :
    validPortB 70000 = false
    ∧ mrAddProject (SessionManager.initial 0) 5 "app" "/x" [70000] "next" =
        (.ok,
         { activeProjects :=
             [{ name := "app", directory := "/x", ports := [70000],
                framework := "next", lastActive := 5 }],
           protectedPorts := [], lastActivity := 5,
           customProtectedServices := [] }) := by
  exact ⟨by decide, by decide⟩

/-- C2 (amended): for every integer `p` outside [1, 65535], `checkPort`,
`killPort`, `monitorPort` and `addCustomProtectedPort` fail with the
InvalidPort error before performing any OS query (empty effect trace) or
any state mutation (session state returned unchanged); `addProject`
performs no port validation. -/
theorem claim_C2_validation (env : OsEnv) (custom : List Int) (port : Int)
    (force : Bool) (polls : List (Except String (List ProcessHandle)))
    (s : SessionData) (now : Int) (svc : String)
    (h : ¬(1 ≤ port ∧ port ≤ 65535)) :
    checkPort env port = (.invalidPort, [])
    ∧ killPort env custom port force = (.invalidPort, [])
    ∧ monitorPort port polls = (.invalidPort, [])
    ∧ addCustomProtectedPort s now port svc = (.invalidPort, s) := by
  have hv : validPortB port = false := by
    simp only [validPortB, Bool.and_eq_false_iff, decide_eq_false_iff_not]
    omega
  exact ⟨by simp [checkPort, hv], by simp [killPort, hv],
    by simp [monitorPort, hv], by simp [addCustomProtectedPort, hv]⟩

/-- Witness for `claim_C2_validation` at port 0. -/
theorem claim_C2_validation_witness :
    checkPort
        { lsofFull := fun _ => .ok [], lsofCrit := fun _ => .ok [],
          lsofPids := fun _ => .ok [], lsofPidsAfter := fun _ => .ok [],
          killOk := fun _ => true, batchKillOk := fun _ => true } 0 =
      (.invalidPort, [])
    ∧ addCustomProtectedPort (SessionManager.initial 0) 7 0 "svc" =
      (.invalidPort, SessionManager.initial 0) := by
  have h := claim_C2_validation
    { lsofFull := fun _ => .ok [], lsofCrit := fun _ => .ok [],
      lsofPids := fun _ => .ok [], lsofPidsAfter := fun _ => .ok [],
      killOk := fun _ => true, batchKillOk := fun _ => true }
    [] 0 false [] (SessionManager.initial 0) 7 "svc" (by decide)
  exact ⟨h.1, h.2.2.2⟩

/-- A failed classify query and an empty classify result are literally the
same `CritCheck`. -/
theorem checkCrit_error_eq_ok_nil (env : OsEnv) (m : Int → String)
    (hcrit : env.lsofCrit = fun p => .error (m p)) (port : Int) :
    checkForCriticalProcesses env.lsofCrit port =
      checkForCriticalProcesses (fun _ => .ok []) port := by
  rw [hcrit]
  simp [checkForCriticalProcesses, classifyProcs, collectCritical,
    dedupFirst, dedupFirstAux]

/-- `killPort` depends on the classify query only through its
`CritCheck`. -/
theorem killPort_crit_congr (env : OsEnv)
    (f : Int → Except String (List ProcessHandle)) (custom : List Int)
    (port : Int) (force : Bool)
    (h : checkForCriticalProcesses env.lsofCrit port =
         checkForCriticalProcesses f port) :
    killPort env custom port force =
      killPort { env with lsofCrit := f } custom port force := by
  simp only [killPort, h]

/-- The `killProjectPorts` loop body depends on the classify query only
through its `CritCheck`. -/
theorem killProjectPort_crit_congr (env : OsEnv)
    (f : Int → Except String (List ProcessHandle)) (custom : List Int)
    (port : Int)
    (h : checkForCriticalProcesses env.lsofCrit port =
         checkForCriticalProcesses f port) :
    killProjectPort env custom port =
      killProjectPort { env with lsofCrit := f } custom port := by
  simp only [killProjectPort, h]

/-- The `killDevServersSelective` loop body depends on the classify query
only through its `CritCheck`. -/
theorem selectivePort_crit_congr (env : OsEnv)
    (f : Int → Except String (List ProcessHandle)) (custom : List Int)
    (port : Int)
    (h : checkForCriticalProcesses env.lsofCrit port =
         checkForCriticalProcesses f port) :
    selectivePort env custom port =
      selectivePort { env with lsofCrit := f } custom port := by
  simp only [selectivePort, h]

/-- C4: when the classify query fails, `checkForCriticalProcesses` reports
`hasCritical = false` with no services, and the termination paths
(`killPort`, `killProjectPorts`, `killDevServersSelective`) behave exactly
as if the classify query had found no processes; in particular `killPort`
on an unprotected, occupied port with a failing classify query proceeds to
signal every bound pid. -/
theorem claim_C4_classifyFailure :
    (∀ (q : Int → Except String (List ProcessHandle)) (p : Int)
        (msg : String),
        q p = .error msg →
        checkForCriticalProcesses q p =
          { hasCritical := false, services := [] })
    ∧ (∀ (env : OsEnv) (m : Int → String),
        env.lsofCrit = (fun p => .error (m p)) →
        (∀ custom port force,
          killPort env custom port force =
            killPort { env with lsofCrit := fun _ => .ok [] }
              custom port force)
        ∧ (∀ custom projects nm,
          killProjectPorts env custom projects nm =
            killProjectPorts { env with lsofCrit := fun _ => .ok [] }
              custom projects nm)
        ∧ (∀ custom,
          killDevServersSelective env custom =
            killDevServersSelective { env with lsofCrit := fun _ => .ok [] }
              custom))
    ∧ (∀ (env : OsEnv) (custom : List Int) (port : Int) (force : Bool)
        (pids : List Nat) (msg : String),
        validPortB port = true →
        isProtectedPort custom port = false →
        env.lsofPids port = .ok pids → pids ≠ [] →
        env.lsofCrit port = .error msg →
        killPort env custom port force =
          (.killed (pids.map fun pid => (pid, env.killOk pid))
             (match env.lsofPidsAfter port with
              | .ok _ => true
              | .error _ => false),
           [.query port, .query port]
             ++ pids.map
                 (fun pid => Ev.signal pid (if force then .kill else .term))
             ++ [.query port])) := by
  refine ⟨fun q p msg h => by simp [checkForCriticalProcesses, h],
    fun env m hcrit => ⟨fun custom port force => ?_,
      fun custom projects nm => ?_, fun custom => ?_⟩,
    fun env custom port force pids msg hv hprot hpids hne hcrit => ?_⟩
  · exact killPort_crit_congr env _ custom port force
      (checkCrit_error_eq_ok_nil env m hcrit port)
  · have hcongr : ∀ p, killProjectPort env custom p =
        killProjectPort { env with lsofCrit := fun _ => .ok [] } custom p :=
      fun p => killProjectPort_crit_congr env _ custom p
        (checkCrit_error_eq_ok_nil env m hcrit p)
    simp only [killProjectPorts]
    cases projects.find? (fun p => strToLower p.name = strToLower nm) with
    | none => rfl
    | some proj => simp only [hcongr]
  · have hcongr : ∀ p, selectivePort env custom p =
        selectivePort { env with lsofCrit := fun _ => .ok [] } custom p :=
      fun p => selectivePort_crit_congr env _ custom p
        (checkCrit_error_eq_ok_nil env m hcrit p)
    simp only [killDevServersSelective, hcongr]
  · have hcheck : checkForCriticalProcesses env.lsofCrit port =
        { hasCritical := false, services := [] } := by
      simp [checkForCriticalProcesses, hcrit]
    simp [killPort, hv, hprot, hpids, List.isEmpty_iff, hne, hcheck]

/-- Witness for `claim_C4_classifyFailure`: a node process on port 3000
with an always-failing classify query still gets its TERM signal. -/
theorem claim_C4_classifyFailure_witness :
    checkForCriticalProcesses
        (fun _ => .error "Command failed: lsof") 3000 =
      { hasCritical := false, services := [] }
    ∧ killPort
        { lsofFull := fun _ => .ok [⟨7, "node", "node server.js"⟩],
          lsofCrit := fun _ => .error "Command failed: lsof",
          lsofPids := fun _ => .ok [7],
          lsofPidsAfter := fun _ => .error "none",
          killOk := fun _ => true, batchKillOk := fun _ => true }
        [] 3000 false =
      (.killed [(7, true)] false,
       [.query 3000, .query 3000, .signal 7 .term, .query 3000]) := by
  constructor
  · exact claim_C4_classifyFailure.1 _ 3000 "Command failed: lsof" rfl
  · have h := claim_C4_classifyFailure.2.2
      { lsofFull := fun _ => .ok [⟨7, "node", "node server.js"⟩],
        lsofCrit := fun _ => .error "Command failed: lsof",
        lsofPids := fun _ => .ok [7],
        lsofPidsAfter := fun _ => .error "none",
        killOk := fun _ => true, batchKillOk := fun _ => true }
      [] 3000 false [7] "Command failed: lsof"
      (by decide) (by decide) rfl (by decide) rfl
    exact h.trans (by decide)

/-- C5 fails on `checkPort`: a query failure whose error message does not
contain the text "No such process" is reported as an operation error
(`isError: true`), not as the port being available. -/
theorem claim_C5_counterexample :
    checkPort
        { lsofFull := fun _ => .error "Command failed: lsof -i :4000 -P -n",
          lsofCrit := fun _ => .ok [], lsofPids := fun _ => .ok [],
          lsofPidsAfter := fun _ => .ok [], killOk := fun _ => true,
          batchKillOk := fun _ => true } 4000 =
      (.queryError "Command failed: lsof -i :4000 -P -n", [.query 4000]) := by
  decide

/-- C5 (amended): each per-port probe of `listDevPorts` and each poll of
`monitorPort` report any OS query failure as the port being available (and
`monitorPort` never turns poll failures into an operation error);
`checkPort` reports a failure as available exactly when the error message
contains "No such process", and as an operation error otherwise. -/
theorem claim_C5_queryFailure :
    (∀ (env : OsEnv) (port : Int) (msg : String),
        validPortB port = true →
        env.lsofFull port = .error msg →
        strContains msg "No such process" = true →
        checkPort env port = (.available, [.query port]))
    ∧ (∀ (env : OsEnv) (port : Int) (msg : String),
        validPortB port = true →
        env.lsofFull port = .error msg →
        strContains msg "No such process" = false →
        checkPort env port = (.queryError msg, [.query port]))
    ∧ (∀ (env : OsEnv) (port : Int) (msg : String),
        env.lsofFull port = .error msg →
        devPortProbe env port = .available)
    ∧ (∀ msg : String, renderStatus (.error msg) = renderStatus (.ok []))
    ∧ (∀ (port : Int) (polls : List (Except String (List ProcessHandle))),
        validPortB port = true →
        monitorPort port polls =
          (.finished (monitorLoop polls ""),
           polls.map (fun _ => Ev.query port))) := by
  refine ⟨fun env port msg hv hq hmsg => ?_,
    fun env port msg hv hq hmsg => ?_,
    fun env port msg hq => ?_, fun msg => rfl,
    fun port polls hv => ?_⟩
  · simp [checkPort, hv, hq, hmsg]
  · simp [checkPort, hv, hq, hmsg]
  · simp [devPortProbe, hq]
  · simp [monitorPort, hv]

/-- Witness for `claim_C5_queryFailure` on port 3000 with failing
queries. -/
theorem claim_C5_queryFailure_witness :
    checkPort
        { lsofFull := fun _ => .error "lsof: No such process",
          lsofCrit := fun _ => .ok [], lsofPids := fun _ => .ok [],
          lsofPidsAfter := fun _ => .ok [], killOk := fun _ => true,
          batchKillOk := fun _ => true } 3000 =
      (.available, [.query 3000])
    ∧ devPortProbe
        { lsofFull := fun _ => .error "boom",
          lsofCrit := fun _ => .ok [], lsofPids := fun _ => .ok [],
          lsofPidsAfter := fun _ => .ok [], killOk := fun _ => true,
          batchKillOk := fun _ => true } 3000 = .available
    ∧ monitorPort 3000 [.error "boom"] =
      (.finished ["🟢 Available"], [.query 3000]) := by
  refine ⟨?_, ?_, ?_⟩
  · exact claim_C5_queryFailure.1
      { lsofFull := fun _ => .error "lsof: No such process",
        lsofCrit := fun _ => .ok [], lsofPids := fun _ => .ok [],
        lsofPidsAfter := fun _ => .ok [], killOk := fun _ => true,
        batchKillOk := fun _ => true } 3000 "lsof: No such process"
      (by decide) rfl (by decide)
  · exact claim_C5_queryFailure.2.2.1
      { lsofFull := fun _ => .error "boom",
        lsofCrit := fun _ => .ok [], lsofPids := fun _ => .ok [],
        lsofPidsAfter := fun _ => .ok [], killOk := fun _ => true,
        batchKillOk := fun _ => true } 3000 "boom" rfl
  · exact (claim_C5_queryFailure.2.2.2.2 3000 [.error "boom"]
      (by decide)).trans (by decide)

/-- The C6 invariant: the protected-port list and the custom-service label
mapping hold exactly the same ports. -/
def InSync (s : SessionData) : Prop :=
  ∀ q : Int,
    q ∈ s.protectedPorts ↔ ∃ e ∈ s.customProtectedServices, e.1 = q

theorem keys_setEntry (m : List (Int × String)) (k q : Int) (v : String) :
    (∃ e ∈ setEntry m k v, e.1 = q) ↔ ((∃ e ∈ m, e.1 = q) ∨ q = k) := by
  have hkey : ∀ e : Int × String,
      ((if e.1 = k then (k, v) else e) : Int × String).1 = e.1 := by
    intro e
    by_cases h0 : e.1 = k <;> simp [h0]
  by_cases h : m.any (fun e => e.1 = k)
  · rw [setEntry, if_pos h]
    simp only [List.any_eq_true, decide_eq_true_eq] at h
    obtain ⟨ek, hek, hek1⟩ := h
    constructor
    · rintro ⟨e', he', hq⟩
      obtain ⟨e, he, rfl⟩ := List.mem_map.mp he'
      rw [hkey e] at hq
      exact Or.inl ⟨e, he, hq⟩
    · rintro (⟨e, he, hq⟩ | rfl)
      · exact ⟨_, List.mem_map_of_mem _ he, by rw [hkey e]; exact hq⟩
      · exact ⟨_, List.mem_map_of_mem _ hek, by rw [hkey ek]; exact hek1⟩
  · rw [setEntry, if_neg h]
    constructor
    · rintro ⟨e, he, hq⟩
      rcases List.mem_append.mp he with he | he
      · exact Or.inl ⟨e, he, hq⟩
      · rw [List.mem_singleton.mp he] at hq
        exact Or.inr hq.symm
    · rintro (⟨e, he, hq⟩ | hqk)
      · exact ⟨e, List.mem_append.mpr (Or.inl he), hq⟩
      · exact ⟨(k, v),
          List.mem_append.mpr (Or.inr (List.mem_singleton.mpr rfl)),
          hqk.symm⟩

theorem keys_delEntry (m : List (Int × String)) (k q : Int) :
    (∃ e ∈ delEntry m k, e.1 = q) ↔ ((∃ e ∈ m, e.1 = q) ∧ q ≠ k) := by
  simp only [delEntry, List.mem_filter, decide_eq_true_eq, ne_eq]
  constructor
  · rintro ⟨e, ⟨he, hk⟩, hq⟩
    refine ⟨⟨e, he, hq⟩, ?_⟩
    rw [← hq]
    exact hk
  · rintro ⟨⟨e, he, hq⟩, hk⟩
    refine ⟨e, ⟨he, ?_⟩, hq⟩
    rw [hq]
    exact hk

theorem addProtectedPort_mem_ports (s : SessionData) (now p q : Int)
    (svc : String) :
    q ∈ (SessionManager.addProtectedPort s now p svc).protectedPorts ↔
      (q ∈ s.protectedPorts ∨ q = p) := by
  show q ∈ (if s.protectedPorts.contains p then s.protectedPorts
    else s.protectedPorts ++ [p]) ↔ _
  by_cases h : s.protectedPorts.contains p
  · rw [if_pos h]
    replace h : p ∈ s.protectedPorts := by simpa using h
    constructor
    · exact Or.inl
    · rintro (hq | rfl)
      · exact hq
      · exact h
  · rw [if_neg h]
    simp [List.mem_append]

theorem addProtectedPort_custom (s : SessionData) (now p : Int)
    (svc : String) :
    (SessionManager.addProtectedPort s now p svc).customProtectedServices =
      setEntry s.customProtectedServices p svc := rfl

theorem removeProtectedPort_mem_ports (s : SessionData) (now p q : Int) :
    q ∈ (SessionManager.removeProtectedPort s now p).protectedPorts ↔
      (q ∈ s.protectedPorts ∧ q ≠ p) := by
  show q ∈ s.protectedPorts.filter (fun x => x ≠ p) ↔ _
  simp [List.mem_filter]

theorem removeProtectedPort_custom (s : SessionData) (now p : Int) :
    (SessionManager.removeProtectedPort s now p).customProtectedServices =
      delEntry s.customProtectedServices p := rfl

/-- C6: the add/remove protected-port mutations keep `protectedPorts` and
`customProtectedServices` over exactly the same ports — `addProtectedPort`
adds `p` to both, `removeProtectedPort` removes `p` from both — and every
other session mutation (`addProject`, `removeProject`, `touchProject`)
leaves both structures untouched, hence also preserves the invariant. -/
theorem claim_C6_protectedSync (s : SessionData) (now p : Int)
    (svc name dir : String) (ports : List Int) (fw : String) :
    (InSync s → InSync (SessionManager.addProtectedPort s now p svc))
    ∧ p ∈ (SessionManager.addProtectedPort s now p svc).protectedPorts
    ∧ (∃ e ∈ (SessionManager.addProtectedPort s now p svc).customProtectedServices,
        e.1 = p)
    ∧ (InSync s → InSync (SessionManager.removeProtectedPort s now p))
    ∧ p ∉ (SessionManager.removeProtectedPort s now p).protectedPorts
    ∧ ¬(∃ e ∈ (SessionManager.removeProtectedPort s now p).customProtectedServices,
        e.1 = p)
    ∧ (SessionManager.addProject s now name dir ports fw).protectedPorts
        = s.protectedPorts
    ∧ (SessionManager.addProject s now name dir ports fw).customProtectedServices
        = s.customProtectedServices
    ∧ (SessionManager.removeProject s now dir).protectedPorts
        = s.protectedPorts
    ∧ (SessionManager.removeProject s now dir).customProtectedServices
        = s.customProtectedServices
    ∧ (SessionManager.touchProject s now dir).protectedPorts
        = s.protectedPorts
    ∧ (SessionManager.touchProject s now dir).customProtectedServices
        = s.customProtectedServices := by
  refine ⟨?_, ?_, ?_, ?_, ?_, ?_, rfl, rfl, rfl, rfl, ?_, ?_⟩
  · intro hs q
    rw [addProtectedPort_mem_ports, addProtectedPort_custom, keys_setEntry,
      hs q]
  · rw [addProtectedPort_mem_ports]
    exact Or.inr rfl
  · rw [addProtectedPort_custom, keys_setEntry]
    exact Or.inr rfl
  · intro hs q
    rw [removeProtectedPort_mem_ports, removeProtectedPort_custom,
      keys_delEntry, hs q]
  · rw [removeProtectedPort_mem_ports]
    simp
  · rw [removeProtectedPort_custom, keys_delEntry]
    simp
  · unfold SessionManager.touchProject
    by_cases h : s.activeProjects.any (fun x => x.directory = dir) <;>
      simp [h]
  · unfold SessionManager.touchProject
    by_cases h : s.activeProjects.any (fun x => x.directory = dir) <;>
      simp [h]

/-- Witness for `claim_C6_protectedSync` on the empty session at port
8443. -/
theorem claim_C6_protectedSync_witness :
    InSync (SessionManager.addProtectedPort (SessionManager.initial 0) 1
      8443 "internal")
    ∧ (8443 : Int) ∈ (SessionManager.addProtectedPort
        (SessionManager.initial 0) 1 8443 "internal").protectedPorts := by
  have h := claim_C6_protectedSync (SessionManager.initial 0) 1 8443
    "internal" "n" "/d" [] "fw"
  exact ⟨h.1 (fun q => by simp [SessionManager.initial]), h.2.1⟩

theorem mem_replaceFirstProject_of_ne (l : List ProjectInfo) (dir : String)
    (pi proj : ProjectInfo) (hmem : proj ∈ l)
    (hne : proj.directory ≠ dir) :
    proj ∈ SessionManager.replaceFirstProject l dir pi := by
  induction l with
  | nil => cases hmem
  | cons hd tl ih =>
    rw [SessionManager.replaceFirstProject]
    by_cases hh : hd.directory = dir
    · rw [if_pos hh]
      rcases List.mem_cons.mp hmem with rfl | hmem2
      · exact absurd hh hne
      · exact List.mem_cons_of_mem _ hmem2
    · rw [if_neg hh]
      rcases List.mem_cons.mp hmem with rfl | hmem2
      · exact List.mem_cons_self _ _
      · exact List.mem_cons_of_mem _ (ih hmem2)

theorem map_dir_touchFirstProject (l : List ProjectInfo) (dir : String)
    (now : Int) :
    (SessionManager.touchFirstProject l dir now).map (fun p => p.directory)
      = l.map (fun p => p.directory) := by
  induction l with
  | nil => rfl
  | cons hd tl ih =>
    rw [SessionManager.touchFirstProject]
    by_cases hh : hd.directory = dir
    · rw [if_pos hh]
      simp
    · rw [if_neg hh]
      simp [ih]

/-- C7: after a successful `load()`, a project is kept iff it was in the
read document with `lastActive` strictly newer than 24 hours before the
load time — so one 25 hours old is evicted and one 23 hours old is kept —
and no other operation evicts: `addProtectedPort` / `removeProtectedPort`
leave the project list unchanged, `addProject` keeps every project of a
different directory, and `touchProject` preserves the project list's
directories. -/
theorem claim_C7_loadEviction (cur d : SessionData) (now : Int) :
    (∀ proj : ProjectInfo,
        proj ∈ (SessionManager.loadSession cur (some d) now).activeProjects
          ↔ (proj ∈ d.activeProjects ∧
             now - 24 * 60 * 60 * 1000 < proj.lastActive))
    ∧ (∀ proj : ProjectInfo,
        proj.lastActive = now - 25 * 60 * 60 * 1000 →
        proj ∉ (SessionManager.loadSession cur (some d) now).activeProjects)
    ∧ (∀ proj : ProjectInfo, proj ∈ d.activeProjects →
        proj.lastActive = now - 23 * 60 * 60 * 1000 →
        proj ∈ (SessionManager.loadSession cur (some d) now).activeProjects)
    ∧ (∀ (s : SessionData) (now2 p : Int) (svc : String),
        (SessionManager.addProtectedPort s now2 p svc).activeProjects
          = s.activeProjects)
    ∧ (∀ (s : SessionData) (now2 p : Int),
        (SessionManager.removeProtectedPort s now2 p).activeProjects
          = s.activeProjects)
    ∧ (∀ (s : SessionData) (now2 : Int) (name dir : String)
        (ports : List Int) (fw : String) (proj : ProjectInfo),
        proj ∈ s.activeProjects → proj.directory ≠ dir →
        proj ∈ (SessionManager.addProject s now2 name dir ports fw).activeProjects)
    ∧ (∀ (s : SessionData) (now2 : Int) (dir : String),
        (SessionManager.touchProject s now2 dir).activeProjects.map
            (fun p => p.directory)
          = s.activeProjects.map (fun p => p.directory)) := by
  have hmem : ∀ proj : ProjectInfo,
      proj ∈ (SessionManager.loadSession cur (some d) now).activeProjects
        ↔ (proj ∈ d.activeProjects ∧
           now - 24 * 60 * 60 * 1000 < proj.lastActive) := by
    intro proj
    simp [SessionManager.loadSession, List.mem_filter]
  refine ⟨hmem, ?_, ?_, fun s now2 p svc => rfl, fun s now2 p => rfl,
    ?_, ?_⟩
  · intro proj hold hin
    have := (hmem proj).mp hin
    omega
  · intro proj hd hnew
    exact (hmem proj).mpr ⟨hd, by omega⟩
  · intro s now2 name dir ports fw proj hmem2 hne
    show proj ∈ (if s.activeProjects.any (fun p => p.directory = dir)
      then SessionManager.replaceFirstProject s.activeProjects dir _
      else s.activeProjects ++ [_])
    by_cases h : s.activeProjects.any (fun p => p.directory = dir)
    · rw [if_pos h]
      exact mem_replaceFirstProject_of_ne _ _ _ _ hmem2 hne
    · rw [if_neg h]
      exact List.mem_append.mpr (Or.inl hmem2)
  · intro s now2 dir
    unfold SessionManager.touchProject
    by_cases h : s.activeProjects.any (fun p => p.directory = dir)
    · rw [if_pos h]
      exact map_dir_touchFirstProject _ _ _
    · rw [if_neg h]

/-- Witness for `claim_C7_loadEviction`: loading a document holding one
project 25 hours old and one 23 hours old at time `now = 100*3600*1000`
keeps exactly the younger one. -/
theorem claim_C7_loadEviction_witness :
    let pOld : ProjectInfo :=
      { name := "old", directory := "/old", ports := [3000],
        framework := "vite", lastActive := 100 * 3600 * 1000 - 25 * 60 * 60 * 1000 }
    let pNew : ProjectInfo :=
      { name := "new", directory := "/new", ports := [3001],
        framework := "next", lastActive := 100 * 3600 * 1000 - 23 * 60 * 60 * 1000 }
    let d : SessionData :=
      { activeProjects := [pOld, pNew], protectedPorts := [],
        lastActivity := 0, customProtectedServices := [] }
    pOld ∉ (SessionManager.loadSession (SessionManager.initial 0) (some d)
        (100 * 3600 * 1000)).activeProjects
    ∧ pNew ∈ (SessionManager.loadSession (SessionManager.initial 0) (some d)
        (100 * 3600 * 1000)).activeProjects := by
  intro pOld pNew d
  constructor
  · exact (claim_C7_loadEviction (SessionManager.initial 0) d
      (100 * 3600 * 1000)).2.1 pOld (by decide)
  · exact (claim_C7_loadEviction (SessionManager.initial 0) d
      (100 * 3600 * 1000)).2.2.1 pNew (by decide) (by decide)

theorem filter_replaceFirstProject (l : List ProjectInfo) (d : String)
    (pi : ProjectInfo) (hpi : pi.directory = d)
    (hcount : l.countP (fun p => p.directory = d) ≤ 1)
    (hany : l.any (fun p => p.directory = d) = true) :
    (SessionManager.replaceFirstProject l d pi).filter
      (fun p => p.directory = d) = [pi] := by
  induction l with
  | nil => simp at hany
  | cons hd tl ih =>
    rw [SessionManager.replaceFirstProject]
    by_cases hh : hd.directory = d
    · rw [if_pos hh]
      simp only [List.countP_cons, hh] at hcount
      simp at hcount
      have h2 : tl.filter (fun p => decide (p.directory = d)) = [] := by
        rw [List.filter_eq_nil_iff]
        intro a ha
        simp [hcount a ha]
      simp [List.filter_cons, hpi, h2]
    · rw [if_neg hh]
      have hany2 : tl.any (fun p => p.directory = d) = true := by
        simp [List.any_cons, hh] at hany
        simpa using hany
      have hcount2 : tl.countP (fun p => p.directory = d) ≤ 1 := by
        simp [List.countP_cons, hh] at hcount
        omega
      rw [List.filter_cons, if_neg (by simp [hh])]
      exact ih hcount2 hany2

theorem mem_replaceFirstProject_self (l : List ProjectInfo) (d : String)
    (pi : ProjectInfo)
    (hany : l.any (fun p => p.directory = d) = true) :
    pi ∈ SessionManager.replaceFirstProject l d pi := by
  induction l with
  | nil => simp at hany
  | cons hd tl ih =>
    rw [SessionManager.replaceFirstProject]
    by_cases hh : hd.directory = d
    · rw [if_pos hh]
      exact List.mem_cons_self _ _
    · rw [if_neg hh]
      have hany2 : tl.any (fun p => p.directory = d) = true := by
        simp [List.any_cons, hh] at hany
        simpa using hany
      exact List.mem_cons_of_mem _ (ih hany2)

theorem addProject_filter (s : SessionData) (now : Int) (n d : String)
    (ports : List Int) (fw : String)
    (hcount : s.activeProjects.countP (fun p => p.directory = d) ≤ 1) :
    (SessionManager.addProject s now n d ports fw).activeProjects.filter
        (fun p => p.directory = d)
      = [{ name := n, directory := d, ports := ports, framework := fw,
           lastActive := now }] := by
  show (if s.activeProjects.any (fun p => p.directory = d)
    then SessionManager.replaceFirstProject s.activeProjects d _
    else s.activeProjects ++ [_]).filter (fun p => p.directory = d) = _
  by_cases h : s.activeProjects.any (fun p => p.directory = d)
  · rw [if_pos h]
    exact filter_replaceFirstProject _ _ _ rfl hcount h
  · rw [if_neg h]
    have h0 : s.activeProjects.filter (fun p => p.directory = d) = [] := by
      rw [List.filter_eq_nil_iff]
      intro a ha
      simp only [Bool.not_eq_true, decide_eq_false_iff_not]
      intro hc
      rw [List.any_eq_true] at h
      exact h ⟨a, ha, by simp [hc]⟩
    simp [List.filter_append, h0]

theorem addProject_self_mem (s : SessionData) (now : Int) (n d : String)
    (ports : List Int) (fw : String) :
    ({ name := n, directory := d, ports := ports, framework := fw,
       lastActive := now } : ProjectInfo) ∈
      (SessionManager.addProject s now n d ports fw).activeProjects := by
  show _ ∈ (if s.activeProjects.any (fun p => p.directory = d)
    then SessionManager.replaceFirstProject s.activeProjects d _
    else s.activeProjects ++ [_])
  by_cases h : s.activeProjects.any (fun p => p.directory = d)
  · rw [if_pos h]
    exact mem_replaceFirstProject_self _ _ _ h
  · rw [if_neg h]
    simp

/-- C8: `addProject` upserts keyed by directory — two calls with the same
directory leave exactly one entry for that directory, carrying the second
call's ports (and name/framework/timestamp) — while two calls with the
same name but different directories leave two distinct entries. -/
theorem claim_C8_addProjectUpsert (s : SessionData) (t1 t2 : Int)
    (n1 n2 nm d d1 d2 : String) (ports1 ports2 : List Int)
    (f1 f2 : String) :
    (s.activeProjects.countP (fun p => p.directory = d) ≤ 1 →
      (SessionManager.addProject
          (SessionManager.addProject s t1 n1 d ports1 f1) t2 n2 d ports2 f2
        ).activeProjects.filter (fun p => p.directory = d)
        = [{ name := n2, directory := d, ports := ports2, framework := f2,
             lastActive := t2 }])
    ∧ (d1 ≠ d2 →
        ({ name := nm, directory := d1, ports := ports1, framework := f1,
           lastActive := t1 } : ProjectInfo) ∈
          (SessionManager.addProject
            (SessionManager.addProject s t1 nm d1 ports1 f1) t2 nm d2
            ports2 f2).activeProjects
        ∧ ({ name := nm, directory := d2, ports := ports2, framework := f2,
             lastActive := t2 } : ProjectInfo) ∈
          (SessionManager.addProject
            (SessionManager.addProject s t1 nm d1 ports1 f1) t2 nm d2
            ports2 f2).activeProjects) := by
  constructor
  · intro hcount
    have h1 := addProject_filter s t1 n1 d ports1 f1 hcount
    have hcount1 : (SessionManager.addProject s t1 n1 d ports1
        f1).activeProjects.countP (fun p => p.directory = d) ≤ 1 := by
      rw [List.countP_eq_length_filter, h1]
      simp
    exact addProject_filter _ t2 n2 d ports2 f2 hcount1
  · intro hne
    constructor
    · have h1 := addProject_self_mem s t1 nm d1 ports1 f1
      show _ ∈ (if (SessionManager.addProject s t1 nm d1 ports1
          f1).activeProjects.any (fun p => p.directory = d2)
        then SessionManager.replaceFirstProject _ d2 _ else _ ++ [_])
      by_cases h : (SessionManager.addProject s t1 nm d1 ports1
          f1).activeProjects.any (fun p => p.directory = d2)
      · rw [if_pos h]
        exact mem_replaceFirstProject_of_ne _ _ _ _ h1 hne
      · rw [if_neg h]
        exact List.mem_append.mpr (Or.inl h1)
    · exact addProject_self_mem _ t2 nm d2 ports2 f2

/-- Witness for `claim_C8_addProjectUpsert` from the empty session. -/
theorem claim_C8_addProjectUpsert_witness :
    (SessionManager.addProject
        (SessionManager.addProject (SessionManager.initial 0) 1 "app" "/x"
          [3000, 3001] "Next.js") 2 "app" "/x" [4000] "vite"
      ).activeProjects.filter (fun p => p.directory = "/x")
      = [{ name := "app", directory := "/x", ports := [4000],
           framework := "vite", lastActive := 2 }]
    ∧ ({ name := "app", directory := "/y", ports := [5000],
         framework := "astro", lastActive := 4 } : ProjectInfo) ∈
        (SessionManager.addProject
          (SessionManager.addProject (SessionManager.initial 0) 3 "app" "/z"
            [1] "npm") 4 "app" "/y" [5000] "astro").activeProjects := by
  constructor
  · exact (claim_C8_addProjectUpsert (SessionManager.initial 0) 1 2 "app"
      "app" "app" "/x" "/q" "/r" [3000, 3001] [4000] "Next.js" "vite").1
      (by decide)
  · exact ((claim_C8_addProjectUpsert (SessionManager.initial 0) 3 4 "x"
      "y" "app" "/w" "/z" "/y" [1] [5000] "npm" "astro").2
      (by decide)).2

theorem find_setEntry_aux (m : List (Int × String)) (k : Int) (v : String)
    (h : m.any (fun e => e.1 = k) = true) :
    (m.map (fun e => if e.1 = k then (k, v) else e)).find?
        (fun e => e.1 = k) = some (k, v) := by
  induction m with
  | nil => simp at h
  | cons e es ih =>
    by_cases he : e.1 = k
    · simp [List.find?_cons, he]
    · have h2 : es.any (fun e => e.1 = k) = true := by
        simp [List.any_cons, he] at h
        simpa using h
      simp [List.find?_cons, he, ih h2]

theorem getEntry_setEntry (m : List (Int × String)) (k : Int) (v : String) :
    getEntry (setEntry m k v) k = some v := by
  by_cases h : m.any (fun e => e.1 = k)
  · rw [setEntry, if_pos h, getEntry, find_setEntry_aux m k v h]
    rfl
  · rw [setEntry, if_neg h, getEntry]
    have hnone : m.find? (fun e => decide (e.1 = k)) = none := by
      rw [List.find?_eq_none]
      intro e he
      simp only [Bool.not_eq_true, decide_eq_false_iff_not]
      intro hc
      exact h (List.any_eq_true.mpr ⟨e, he, by simp [hc]⟩)
    rw [List.find?_append, hnone]
    simp [List.find?_cons]

theorem count_addProtectedPort (s : SessionData) (now p : Int)
    (svc : String) (h : s.protectedPorts.count p ≤ 1) :
    (SessionManager.addProtectedPort s now p svc).protectedPorts.count p
      = 1 := by
  show (if s.protectedPorts.contains p then s.protectedPorts
    else s.protectedPorts ++ [p]).count p = 1
  by_cases hc : s.protectedPorts.contains p
  · rw [if_pos hc]
    have hmem : p ∈ s.protectedPorts := by simpa using hc
    have := List.count_pos_iff.mpr hmem
    omega
  · rw [if_neg hc]
    have hmem : p ∉ s.protectedPorts := by simpa using hc
    rw [List.count_append, List.count_eq_zero_of_not_mem hmem]
    simp

/-- C9: calling `addProtectedPort(p, l1)` then `addProtectedPort(p, l2)`
leaves the protected-port list containing `p` exactly once (starting from
a state holding `p` at most once), with the label mapping for `p` equal to
the most recent call's `l2`. -/
theorem claim_C9_addProtectedPortIdem (s : SessionData) (t1 t2 p : Int)
    (l1 l2 : String) (h : s.protectedPorts.count p ≤ 1) :
    (SessionManager.addProtectedPort
        (SessionManager.addProtectedPort s t1 p l1) t2 p l2
      ).protectedPorts.count p = 1
    ∧ getEntry (SessionManager.addProtectedPort
        (SessionManager.addProtectedPort s t1 p l1) t2 p l2
      ).customProtectedServices p = some l2 := by
  have h1 := count_addProtectedPort s t1 p l1 h
  constructor
  · exact count_addProtectedPort _ t2 p l2 (by rw [h1])
  · rw [addProtectedPort_custom]
    exact getEntry_setEntry _ p l2

/-- Witness for `claim_C9_addProtectedPortIdem` on the empty session. -/
theorem claim_C9_addProtectedPortIdem_witness :
    (SessionManager.addProtectedPort
        (SessionManager.addProtectedPort (SessionManager.initial 0) 1 9005
          "metrics") 2 9005 "tracing").protectedPorts.count 9005 = 1
    ∧ getEntry (SessionManager.addProtectedPort
        (SessionManager.addProtectedPort (SessionManager.initial 0) 1 9005
          "metrics") 2 9005 "tracing").customProtectedServices 9005
      = some "tracing" := by
  exact claim_C9_addProtectedPortIdem (SessionManager.initial 0) 1 2 9005
    "metrics" "tracing" (by decide)

/-- C10 fails on `getActiveProjects`: the source returns
`this.sessionData.activeProjects` itself (no copy), so a caller mutating
the returned array changes the store's internal project state — here the
store's project list goes from one project to empty through the reference
handed out by the accessor. -/
theorem claim_C10_counterexample :
    let proj : ProjectInfo :=
      { name := "app", directory := "/x", ports := [3000],
        framework := "next", lastActive := 0 }
    let st : MgrState :=
      { heap := { projArrays := [[proj]], intArrays := [[5]] },
        projectsRef := 0, protectedRef := 0 }
    readProjArray st.heap st.projectsRef = [proj]
    ∧ readProjArray
        (writeProjArray st.heap (hGetActiveProjects st).2 [])
        st.projectsRef = [] := by
  intro proj st
  exact ⟨rfl, rfl⟩

/-- C10 (amended): `getProtectedPorts` returns a defensive copy — it hands
out a fresh cell with the same contents, and mutating that cell leaves the
store's protected-port state unchanged — while `getActiveProjects` returns
the internal reference itself (no copy), so writing through it overwrites
the store's project state. -/
theorem claim_C10_accessorCopies (st : MgrState) :
    ((hGetActiveProjects st).2 = st.projectsRef
      ∧ (hGetActiveProjects st).1 = st)
    ∧ (∀ v : List ProjectInfo,
        st.projectsRef < st.heap.projArrays.length →
        readProjArray
          (writeProjArray ((hGetActiveProjects st).1).heap
            (hGetActiveProjects st).2 v) st.projectsRef = v)
    ∧ readIntArray ((hGetProtectedPorts st).1).heap (hGetProtectedPorts st).2
        = readIntArray st.heap st.protectedRef
    ∧ (∀ v : List Int,
        st.protectedRef < st.heap.intArrays.length →
        readIntArray
          (writeIntArray ((hGetProtectedPorts st).1).heap
            (hGetProtectedPorts st).2 v)
          ((hGetProtectedPorts st).1).protectedRef
          = readIntArray st.heap st.protectedRef) := by
  refine ⟨⟨rfl, rfl⟩, fun v hlt => ?_, ?_, fun v hlt => ?_⟩
  · simp [hGetActiveProjects, readProjArray, writeProjArray, List.getD,
      List.getElem?_set_self', hlt]
  · simp [hGetProtectedPorts, allocIntArray, readIntArray, List.getD,
      List.getElem?_concat_length]
  · have hne : st.heap.intArrays.length ≠ st.protectedRef :=
      fun hc => absurd hc.symm (Nat.ne_of_lt hlt)
    simp only [hGetProtectedPorts, allocIntArray, readIntArray,
      writeIntArray, List.getD, List.get?_eq_getElem?]
    rw [List.getElem?_set_ne hne]
    simp [List.getElem?_append, hlt]

/-- Witness for `claim_C10_accessorCopies` on a one-cell store. -/
theorem claim_C10_accessorCopies_witness :
    let st : MgrState :=
      { heap := { projArrays := [[]], intArrays := [[3000, 8443]] },
        projectsRef := 0, protectedRef := 0 }
    readIntArray ((hGetProtectedPorts st).1).heap (hGetProtectedPorts st).2
      = [3000, 8443]
    ∧ readIntArray
        (writeIntArray ((hGetProtectedPorts st).1).heap
          (hGetProtectedPorts st).2 [])
        ((hGetProtectedPorts st).1).protectedRef = [3000, 8443] := by
  intro st
  constructor
  · exact (claim_C10_accessorCopies st).2.2.1.trans (by decide)
  · exact ((claim_C10_accessorCopies st).2.2.2 [] (by decide)).trans
      (by decide)
